import Mathlib

/-!
Shallow embedding of the grademark backtesting core: the position state
machine of `src/lib/position-manager.ts` and the driver `backtest` of
`src/lib/backtest.ts`.  JavaScript numbers are modelled as rationals,
`Date` timestamps as naturals, fields that may be `undefined` as `Option`,
and a thrown JavaScript error — a `chai` assertion or the TypeError raised
in `_exitPosition` — as `Except.error` carrying its message.  Strategy callbacks are modelled as pure Lean functions;
`entryRule` and `exitRule` return the `enter` / `exit` call they made, if
any.  The `parameters` value of a strategy is only threaded through to its
own callbacks by the source, so a callback here can simply close over it.
-/

deriving instance DecidableEq for Except

/-- Direction of a trade (`TradeDirection` in `strategy.ts`). -/
inductive TradeDirection where
  | Long
  | Short
  deriving DecidableEq, Repr

/-- One OHLCV price bar (`IBar` in `bar.ts`).  `open` is a Lean keyword, so
that field is called `open_`. -/
structure IBar where
  time : ℕ
  open_ : ℚ
  high : ℚ
  low : ℚ
  close : ℚ
  volume : ℚ
  deriving DecidableEq, Repr

/-- An open position (`IPosition` in `position.ts`). -/
structure IPosition where
  direction : TradeDirection
  entryTime : ℕ
  entryPrice : ℚ
  growth : ℚ
  profit : ℚ
  profitPct : ℚ
  holdingPeriod : ℕ
  maxPriceRecorded : ℚ
  initialStopPrice : Option ℚ
  curStopPrice : Option ℚ
  profitTarget : Option ℚ
  initialUnitRisk : Option ℚ
  initialRiskPct : Option ℚ
  curRiskPct : Option ℚ
  curRMultiple : Option ℚ
  stopPriceSeries : Option (List (ℕ × ℚ))
  riskSeries : Option (List (ℕ × ℚ))
  deriving DecidableEq, Repr

/-- A completed trade (`ITrade` in `trade.ts`). -/
structure ITrade where
  direction : TradeDirection
  entryTime : ℕ
  entryPrice : ℚ
  exitTime : ℕ
  exitPrice : ℚ
  profit : ℚ
  profitPct : ℚ
  growth : ℚ
  riskPct : Option ℚ
  riskSeries : Option (List (ℕ × ℚ))
  rmultiple : Option ℚ
  holdingPeriod : ℕ
  exitReason : String
  stopPrice : Option ℚ
  stopPriceSeries : Option (List (ℕ × ℚ))
  profitTarget : Option ℚ
  maxPriceRecorded : Option ℚ
  deriving DecidableEq, Repr

/-- Options to `enterPosition` (`IEnterPositionOptions` in `strategy.ts`). -/
structure IEnterPositionOptions where
  direction : Option TradeDirection
  entryPrice : Option ℚ
  deriving DecidableEq, Repr

/-- Options to `backtest` (`IBacktestOptions` in `backtest.ts`); in
JavaScript the absent fields are `undefined`, which is falsy. -/
structure IBacktestOptions where
  recordStopPrice : Bool
  recordRisk : Bool
  deriving DecidableEq, Repr

/-- The strategy contract (`IStrategy` in `strategy.ts`). -/
structure IStrategy where
  lookbackPeriod : Option ℕ
  prepIndicators : Option (List IBar → List IBar)
  entryRule : IBar → List IBar → Option IEnterPositionOptions
  stopLoss : Option (ℚ → IPosition → IBar → List IBar → ℚ)
  trailingStopLoss : Option (ℚ → IPosition → IBar → List IBar → ℚ)
  profitTarget : Option (ℚ → IPosition → IBar → List IBar → ℚ)
  exitRule : Option (ℚ → IPosition → IBar → List IBar → Bool)

/-- Effective lookback period, `strategy.lookbackPeriod || 1` in JavaScript
(both `undefined` and `0` fall back to `1`). -/
def lookbackOf (strategy : IStrategy) : ℕ :=
  match strategy.lookbackPeriod with
  | none => 1
  | some n => if n = 0 then 1 else n

/-- Push onto the bounded lookback ring buffer (`CBuffer` of capacity `n`),
evicting the oldest bar on overflow; the list is ordered oldest first. -/
def pushBuffer (n : ℕ) (buf : List IBar) (bar : IBar) : List IBar :=
  let l := buf ++ [bar]
  l.drop (l.length - n)

/-- Position status (`PositionStatus` in `position-manager.ts`). -/
inductive PositionStatus where
  | None
  | Enter
  | Position
  | Exit
  deriving DecidableEq, Repr

/-- The mutable fields of a `PositionManager`. -/
structure PMState where
  positionStatus : PositionStatus
  positionDirection : TradeDirection
  conditionalEntryPrice : Option ℚ
  completedTrades : List ITrade
  lookbackBuffer : List IBar
  openPosition : Option IPosition
  deriving DecidableEq, Repr

/-- A fresh `PositionManager` state. -/
def initialState : PMState :=
  { positionStatus := PositionStatus.None
    positionDirection := TradeDirection.Long
    conditionalEntryPrice := none
    completedTrades := []
    lookbackBuffer := []
    openPosition := none }

/-- `PositionManager.finalizePosition`: freeze an exited position into an
immutable trade record. -/
def finalizePosition (position : IPosition) (exitTime : ℕ) (exitPrice : ℚ)
    (exitReason : String) : ITrade :=
  let profit :=
    match position.direction with
    | TradeDirection.Long => exitPrice - position.entryPrice
    | TradeDirection.Short => position.entryPrice - exitPrice
  { direction := position.direction
    entryTime := position.entryTime
    entryPrice := position.entryPrice
    exitTime := exitTime
    exitPrice := exitPrice
    profit := profit
    profitPct := profit / position.entryPrice * 100
    growth :=
      match position.direction with
      | TradeDirection.Long => exitPrice / position.entryPrice
      | TradeDirection.Short => position.entryPrice / exitPrice
    riskPct := position.initialRiskPct
    riskSeries := position.riskSeries
    rmultiple :=
      match position.initialUnitRisk with
      | some iur => some (profit / iur)
      | none => none
    holdingPeriod := position.holdingPeriod
    exitReason := exitReason
    stopPrice := position.initialStopPrice
    stopPriceSeries := position.stopPriceSeries
    profitTarget := position.profitTarget
    maxPriceRecorded := some position.maxPriceRecorded }

/-- `PositionManager._updatePosition`: refresh the running metrics from the
bar's close.  Note that `profit` is `bar.close - entryPrice` for both
directions (the direction flip is only applied to `growth`). -/
def updatePosition (position : IPosition) (bar : IBar) : IPosition :=
  let profit := bar.close - position.entryPrice
  let base :=
    { position with
        profit := profit
        profitPct := profit / position.entryPrice * 100
        growth :=
          match position.direction with
          | TradeDirection.Long => bar.close / position.entryPrice
          | TradeDirection.Short => position.entryPrice / bar.close
        holdingPeriod := position.holdingPeriod + 1 }
  match position.curStopPrice with
  | some cs =>
    let unitRisk :=
      match position.direction with
      | TradeDirection.Long => bar.close - cs
      | TradeDirection.Short => cs - bar.close
    { base with
        curRiskPct := some (unitRisk / bar.close * 100)
        curRMultiple := some (profit / unitRisk) }
  | none => base

/-- `PositionManager._closePosition`: append the finalized trade and reset to
no open position. -/
def closePosition (s : PMState) (buf : List IBar) (position : IPosition)
    (bar : IBar) (exitPrice : ℚ) (exitReason : String) : PMState :=
  { s with
      lookbackBuffer := buf
      completedTrades :=
        s.completedTrades ++ [finalizePosition position bar.time exitPrice exitReason]
      openPosition := none
      positionStatus := PositionStatus.None }

/-- The `PositionStatus.None` arm of `addBar`: invoke the entry rule; if it
called `enter`, record direction and conditional entry price and move to
`Enter` (no position is materialized on the signal bar). -/
def stepNone (strategy : IStrategy) (s : PMState) (buf : List IBar)
    (bar : IBar) : PMState :=
  match strategy.entryRule bar buf with
  | some o =>
    { s with
        lookbackBuffer := buf
        positionStatus := PositionStatus.Enter
        positionDirection := o.direction.getD TradeDirection.Long
        conditionalEntryPrice := o.entryPrice }
  | none => { s with lookbackBuffer := buf }

/-- The `PositionStatus.Enter` arm of `addBar`: require the conditional entry
price, when set, to be breached intrabar; then materialize the position at
`bar.open`, seed `maxPriceRecorded` from the candle body (starting from `0`),
evaluate `stopLoss` / `trailingStopLoss` / `profitTarget` and the risk
fields, and move to `Position`. -/
def stepEnter (strategy : IStrategy) (options : IBacktestOptions) (s : PMState)
    (buf : List IBar) (bar : IBar) : Except String PMState :=
  match s.openPosition with
  | some _ => Except.error ("Expected there to be no open position initialized yet!")
  | none =>
    let blocked : Bool :=
      match s.conditionalEntryPrice with
      | some p =>
        match s.positionDirection with
        | TradeDirection.Long => decide (bar.high < p)
        | TradeDirection.Short => decide (bar.low > p)
      | none => false
    if blocked then
      Except.ok { s with lookbackBuffer := buf }
    else
      let entryPrice := bar.open_
      let pos0 : IPosition :=
        { direction := s.positionDirection
          entryTime := bar.time
          entryPrice := entryPrice
          growth := 1
          profit := 0
          profitPct := 0
          holdingPeriod := 0
          maxPriceRecorded := 0
          initialStopPrice := none
          curStopPrice := none
          profitTarget := none
          initialUnitRisk := none
          initialRiskPct := none
          curRiskPct := none
          curRMultiple := none
          stopPriceSeries := none
          riskSeries := none }
      let pos1 :=
        match pos0.direction with
        | TradeDirection.Long =>
          let top := if bar.close > bar.open_ then bar.close else bar.open_
          { pos0 with maxPriceRecorded := max top pos0.maxPriceRecorded }
        | TradeDirection.Short =>
          let bottom := if bar.close > bar.open_ then bar.open_ else bar.close
          { pos0 with maxPriceRecorded := min bottom pos0.maxPriceRecorded }
      let pos2 :=
        match strategy.stopLoss with
        | some f =>
          let d := f entryPrice pos1 bar buf
          let isp :=
            match pos1.direction with
            | TradeDirection.Long => entryPrice - d
            | TradeDirection.Short => entryPrice + d
          { pos1 with initialStopPrice := some isp, curStopPrice := some isp }
        | none => pos1
      let pos3 :=
        match strategy.trailingStopLoss with
        | some f =>
          let d := f entryPrice pos2 bar buf
          let tsp :=
            match pos2.direction with
            | TradeDirection.Long => entryPrice - d
            | TradeDirection.Short => entryPrice + d
          let isp :=
            match pos2.initialStopPrice with
            | none => tsp
            | some old =>
              match pos2.direction with
              | TradeDirection.Long => max old tsp
              | TradeDirection.Short => min old tsp
          let p := { pos2 with initialStopPrice := some isp, curStopPrice := some isp }
          if options.recordStopPrice then
            { p with stopPriceSeries := some [(bar.time, isp)] }
          else p
        | none => pos2
      let pos4 :=
        match pos3.curStopPrice with
        | some cs =>
          let iur :=
            match pos3.direction with
            | TradeDirection.Long => entryPrice - cs
            | TradeDirection.Short => cs - entryPrice
          let irp := iur / entryPrice * 100
          let p :=
            { pos3 with
                initialUnitRisk := some iur
                initialRiskPct := some irp
                curRiskPct := some irp
                curRMultiple := some 0 }
          if options.recordRisk then { p with riskSeries := some [(bar.time, irp)] } else p
        | none => pos3
      let pos5 :=
        match strategy.profitTarget with
        | some f =>
          let d := f entryPrice pos4 bar buf
          { pos4 with
              profitTarget :=
                some (match pos4.direction with
                      | TradeDirection.Long => entryPrice + d
                      | TradeDirection.Short => entryPrice - d) }
        | none => pos4
      Except.ok
        { s with
            lookbackBuffer := buf
            openPosition := some pos5
            positionStatus := PositionStatus.Position }

/-- Tail of the `Position` arm after the stop-loss and profit-target checks
did not fire: update the running metrics, record risk, then run the exit
rule.  When the rule calls `exit`, `_exitPosition` evaluates
`this.lookbackBuffer.data.last`; `data` is the `CBuffer` library's plain
backing `Array`, which has no `last` property (`last` is a method on the
`CBuffer` prototype, and the same `data` array is what every lookback
`DataFrame` is built from), so `lastBar` is `undefined` and reading
`lastBar.close` — the second argument of `_closePosition` — throws a
TypeError on this very bar, before any close, trade append or status
change can happen.  The real message quotes the field name; it is spelled
here without the quotes. -/
def stepPositionTail (strategy : IStrategy) (options : IBacktestOptions)
    (s : PMState) (buf : List IBar) (bar : IBar) (pos2 : IPosition) :
    Except String PMState :=
  let pos3 := updatePosition pos2 bar
  let pos4 :=
    if pos3.curRiskPct.isSome && options.recordRisk then
      { pos3 with
          riskSeries :=
            some (pos3.riskSeries.getD [] ++ [(bar.time, pos3.curRiskPct.getD 0)]) }
    else pos3
  match strategy.exitRule with
  | some rule =>
    if rule pos4.entryPrice pos4 bar buf then
      Except.error ("TypeError: Cannot read properties of undefined (reading close)")
    else
      Except.ok { s with lookbackBuffer := buf, openPosition := some pos4 }
  | none => Except.ok { s with lookbackBuffer := buf, openPosition := some pos4 }

/-- The trailing-stop re-evaluation block of the `Position` arm: recompute
the candidate stop from `maxPriceRecorded` and the returned distance, adopt
it only when strictly more favorable, then record the stop price when
`recordStopPrice` is set. -/
def trailingReeval (strategy : IStrategy) (options : IBacktestOptions)
    (buf : List IBar) (bar : IBar) (pos1 : IPosition) : IPosition :=
  match strategy.trailingStopLoss with
  | some f =>
    let d := f pos1.entryPrice pos1 bar buf
    let p :=
      match pos1.direction with
      | TradeDirection.Long =>
        let nts := pos1.maxPriceRecorded - d
        match pos1.curStopPrice with
        | some cs => if nts > cs then { pos1 with curStopPrice := some nts } else pos1
        | none => pos1
      | TradeDirection.Short =>
        let nts := pos1.maxPriceRecorded + d
        match pos1.curStopPrice with
        | some cs => if nts < cs then { pos1 with curStopPrice := some nts } else pos1
        | none => pos1
    if options.recordStopPrice then
      { p with
          stopPriceSeries :=
            some (p.stopPriceSeries.getD [] ++ [(bar.time, p.curStopPrice.getD 0)]) }
    else p
  | none => pos1

/-- Middle of the `Position` arm after the stop-loss check did not fire:
trailing re-evaluation, then the profit-target check against the intrabar
high / low. -/
def stepPositionAfterStop (strategy : IStrategy) (options : IBacktestOptions)
    (s : PMState) (buf : List IBar) (bar : IBar) (pos1 : IPosition) :
    Except String PMState :=
  let pos2 := trailingReeval strategy options buf bar pos1
  match pos2.profitTarget with
  | some tgt =>
    if (match pos2.direction with
        | TradeDirection.Long => decide (bar.high ≥ tgt)
        | TradeDirection.Short => decide (bar.low ≤ tgt)) then
      Except.ok (closePosition s buf pos2 bar tgt ("profit-target"))
    else
      stepPositionTail strategy options s buf bar pos2
  | none => stepPositionTail strategy options s buf bar pos2

/-- The `PositionStatus.Position` arm of `addBar`: update `maxPriceRecorded`
from the candle body (`top` / `bottom` are the greater and lesser of open and
close), check the stop loss against the candle body, then hand over to
`stepPositionAfterStop`. -/
def stepPosition (strategy : IStrategy) (options : IBacktestOptions)
    (s : PMState) (buf : List IBar) (bar : IBar) : Except String PMState :=
  match s.openPosition with
  | none => Except.error ("Expected open position to already be initialized!")
  | some pos0 =>
    let top := if bar.close > bar.open_ then bar.close else bar.open_
    let bottom := if bar.close < bar.open_ then bar.close else bar.open_
    let pos1 :=
      match pos0.direction with
      | TradeDirection.Long =>
        { pos0 with maxPriceRecorded := max top pos0.maxPriceRecorded }
      | TradeDirection.Short =>
        { pos0 with maxPriceRecorded := min bottom pos0.maxPriceRecorded }
    match pos1.curStopPrice with
    | some cs =>
      if (match pos1.direction with
          | TradeDirection.Long => decide (bottom ≤ cs)
          | TradeDirection.Short => decide (top ≥ cs)) then
        Except.ok (closePosition s buf pos1 bar cs ("stop-loss"))
      else
        stepPositionAfterStop strategy options s buf bar pos1
    | none => stepPositionAfterStop strategy options s buf bar pos1

/-- The `PositionStatus.Exit` arm of `addBar`: assert that a position exists;
otherwise a no-op (the exit-rule close itself was moved into
`_exitPosition`). -/
def stepExit (s : PMState) (buf : List IBar) : Except String PMState :=
  match s.openPosition with
  | none => Except.error ("Expected open position to already be initialized!")
  | some _ => Except.ok { s with lookbackBuffer := buf }

/-- `PositionManager.addBar`: push the bar into the lookback buffer and run
one state-machine step (a no-op until the lookback window is full). -/
def addBar (strategy : IStrategy) (options : IBacktestOptions) (s : PMState)
    (bar : IBar) : Except String PMState :=
  let buf := pushBuffer (lookbackOf strategy) s.lookbackBuffer bar
  if buf.length < lookbackOf strategy then
    Except.ok { s with lookbackBuffer := buf }
  else
    match s.positionStatus with
    | PositionStatus.None => Except.ok (stepNone strategy s buf bar)
    | PositionStatus.Enter => stepEnter strategy options s buf bar
    | PositionStatus.Position => stepPosition strategy options s buf bar
    | PositionStatus.Exit => stepExit s buf

/-- The all-false (default) backtest options: a fresh `PositionManager`
holds `{}`, whose absent fields are falsy. -/
def noRecordOptions : IBacktestOptions :=
  { recordStopPrice := false, recordRisk := false }

/-- The module-local `finalizePosition` of `backtest.ts`; unlike the
manager's copy it does not put `maxPriceRecorded` on the trade. -/
def backtestFinalizePosition (position : IPosition) (exitTime : ℕ)
    (exitPrice : ℚ) (exitReason : String) : ITrade :=
  let profit :=
    match position.direction with
    | TradeDirection.Long => exitPrice - position.entryPrice
    | TradeDirection.Short => position.entryPrice - exitPrice
  { direction := position.direction
    entryTime := position.entryTime
    entryPrice := position.entryPrice
    exitTime := exitTime
    exitPrice := exitPrice
    profit := profit
    profitPct := profit / position.entryPrice * 100
    growth :=
      match position.direction with
      | TradeDirection.Long => exitPrice / position.entryPrice
      | TradeDirection.Short => position.entryPrice / exitPrice
    riskPct := position.initialRiskPct
    riskSeries := position.riskSeries
    rmultiple :=
      match position.initialUnitRisk with
      | some iur => some (profit / iur)
      | none => none
    holdingPeriod := position.holdingPeriod
    exitReason := exitReason
    stopPrice := position.initialStopPrice
    stopPriceSeries := position.stopPriceSeries
    profitTarget := position.profitTarget
    maxPriceRecorded := none }

/-- Feed the bars one at a time into the position manager. -/
def foldBars (strategy : IStrategy) (options : IBacktestOptions) :
    PMState → List IBar → Except String PMState
  | s, [] => Except.ok s
  | s, b :: rest =>
    match addBar strategy options s b with
    | Except.ok s1 => foldBars strategy options s1 rest
    | Except.error e => Except.error e

/-- The indicator series used by `backtest`: `prepIndicators` applied to the
input series when present, else the input series itself. -/
def indicatorsOf (strategy : IStrategy) (inputSeries : List IBar) : List IBar :=
  match strategy.prepIndicators with
  | some f => f inputSeries
  | none => inputSeries

/-- `backtest` from `backtest.ts`: validate the input, prepare indicators,
feed every bar into a `PositionManager`, then force-close any still-open
position at the last bar's close with reason `finalize`.  Note that the
source constructs `new PositionManager(strategy)` without forwarding
`options`, so the manager always runs with the default (all-false)
options. -/
def backtest (strategy : IStrategy) (inputSeries : List IBar)
    (options : IBacktestOptions) : Except String (List ITrade) :=
  if inputSeries.isEmpty then
    Except.error ("Expect input data series to contain at last 1 bar.")
  else if inputSeries.length < lookbackOf strategy then
    Except.error ("You have less input data than your lookback period, the size of your input data should be some multiple of your lookback period.")
  else
    let indicatorsSeries := indicatorsOf strategy inputSeries
    match foldBars strategy noRecordOptions initialState indicatorsSeries with
    | Except.error e => Except.error e
    | Except.ok finalState =>
      match finalState.openPosition with
      | some position =>
        match indicatorsSeries.getLast? with
        | some lastBar =>
          Except.ok (finalState.completedTrades ++
            [backtestFinalizePosition position lastBar.time lastBar.close ("finalize")])
        | none => Except.error ("No elements in sequence")
      | none => Except.ok finalState.completedTrades

/-- Convenience constructor for test bars. -/
def mkBar (time : ℕ) (o h l c : ℚ) : IBar :=
  { time := time, open_ := o, high := h, low := l, close := c, volume := 0 }

/-- A strategy that enters Long unconditionally and exits as soon as the exit
rule is consulted. -/
def alwaysExitStrategy : IStrategy :=
  { lookbackPeriod := none
    prepIndicators := none
    entryRule := fun _ _ =>
      some { direction := some TradeDirection.Long, entryPrice := none }
    stopLoss := none
    trailingStopLoss := none
    profitTarget := none
    exitRule := some (fun _ _ _ _ => true) }

/-- A strategy that enters Long unconditionally and never exits. -/
def longOnlyStrategy : IStrategy :=
  { lookbackPeriod := none
    prepIndicators := none
    entryRule := fun _ _ =>
      some { direction := some TradeDirection.Long, entryPrice := none }
    stopLoss := none
    trailingStopLoss := none
    profitTarget := none
    exitRule := none }

/-- A strategy that enters Long unconditionally with a fixed stop-loss
distance of 2 and never exits by rule. -/
def stopOnlyStrategy : IStrategy :=
  { lookbackPeriod := none
    prepIndicators := none
    entryRule := fun _ _ =>
      some { direction := some TradeDirection.Long, entryPrice := none }
    stopLoss := some (fun _ _ _ _ => 2)
    trailingStopLoss := none
    profitTarget := none
    exitRule := none }

/-- A strategy that enters Long unconditionally with a trailing-stop distance
of 1 and never exits by rule. -/
def trailingOnlyStrategy : IStrategy :=
  { lookbackPeriod := none
    prepIndicators := none
    entryRule := fun _ _ =>
      some { direction := some TradeDirection.Long, entryPrice := none }
    stopLoss := none
    trailingStopLoss := some (fun _ _ _ _ => 1)
    profitTarget := none
    exitRule := none }

/-- A manager state that is awaiting entry (status `Enter`, direction Long,
no conditional entry price), as reached after an unconditional Long entry
signal. -/
def enterStateW : PMState :=
  { positionStatus := PositionStatus.Enter
    positionDirection := TradeDirection.Long
    conditionalEntryPrice := none
    completedTrades := []
    lookbackBuffer := []
    openPosition := none }

/-- A Long position entered at price 10 with a stop at 8, as materialized by
`stepEnter` from `stopOnlyStrategy` on the bar `mkBar 2 10 11 9 10`. -/
def stopPositionW : IPosition :=
  { direction := TradeDirection.Long
    entryTime := 2
    entryPrice := 10
    growth := 1
    profit := 0
    profitPct := 0
    holdingPeriod := 0
    maxPriceRecorded := 10
    initialStopPrice := some 8
    curStopPrice := some 8
    profitTarget := none
    initialUnitRisk := some 2
    initialRiskPct := some 20
    curRiskPct := some 20
    curRMultiple := some 0
    stopPriceSeries := none
    riskSeries := none }

/-- A manager state holding `stopPositionW` open. -/
def positionStateW : PMState :=
  { positionStatus := PositionStatus.Position
    positionDirection := TradeDirection.Long
    conditionalEntryPrice := none
    completedTrades := []
    lookbackBuffer := [mkBar 2 10 11 9 10]
    openPosition := some stopPositionW }

/-- A Long position entered at price 10 with no stop or target, as
materialized by `stepEnter` from `longOnlyStrategy` on `mkBar 2 10 10 10 10`. -/
def plainPositionW : IPosition :=
  { direction := TradeDirection.Long
    entryTime := 2
    entryPrice := 10
    growth := 1
    profit := 0
    profitPct := 0
    holdingPeriod := 0
    maxPriceRecorded := 10
    initialStopPrice := none
    curStopPrice := none
    profitTarget := none
    initialUnitRisk := none
    initialRiskPct := none
    curRiskPct := none
    curRMultiple := none
    stopPriceSeries := none
    riskSeries := none }

/-- The manager state after feeding `mkBar 1 10 10 10 10` and
`mkBar 2 10 10 10 10` to `longOnlyStrategy`: `plainPositionW` is open. -/
def openFinalStateW : PMState :=
  { positionStatus := PositionStatus.Position
    positionDirection := TradeDirection.Long
    conditionalEntryPrice := none
    completedTrades := []
    lookbackBuffer := [mkBar 2 10 10 10 10]
    openPosition := some plainPositionW }

/-- The bar fed to `positionStateW` for the monotonicity witness run. -/
def monotoneBarW : IBar := mkBar 3 10 12 9 11

/-- `stopPositionW` after processing `monotoneBarW`: candle body top 11 is
recorded, the stop stays at 8, and the running metrics are refreshed from
the close 11. -/
def updatedStopPositionW : IPosition :=
  { direction := TradeDirection.Long
    entryTime := 2
    entryPrice := 10
    growth := 11 / 10
    profit := 1
    profitPct := 10
    holdingPeriod := 1
    maxPriceRecorded := 11
    initialStopPrice := some 8
    curStopPrice := some 8
    profitTarget := none
    initialUnitRisk := some 2
    initialRiskPct := some 20
    curRiskPct := some (300 / 11)
    curRMultiple := some (1 / 3)
    stopPriceSeries := none
    riskSeries := none }

/-- The manager state after feeding `monotoneBarW` to `positionStateW`. -/
def updatedPositionStateW : PMState :=
  { positionStatus := PositionStatus.Position
    positionDirection := TradeDirection.Long
    conditionalEntryPrice := none
    completedTrades := []
    lookbackBuffer := [monotoneBarW]
    openPosition := some updatedStopPositionW }

/-- A bar whose candle body bottom `min(8, 8) = 8` touches the stop of
`stopPositionW` (its low 7 is well below it). -/
def stopHitBarW : IBar := mkBar 3 8 10 7 8

/-- The trade emitted when `stopPositionW` is stopped out on `stopHitBarW`
at the stop price 8. -/
def stopLossTradeW : ITrade :=
  { direction := TradeDirection.Long
    entryTime := 2
    entryPrice := 10
    exitTime := 3
    exitPrice := 8
    profit := -2
    profitPct := -20
    growth := 4 / 5
    riskPct := some 20
    riskSeries := none
    rmultiple := some (-1)
    holdingPeriod := 0
    exitReason := ("stop-loss")
    stopPrice := some 8
    stopPriceSeries := none
    profitTarget := none
    maxPriceRecorded := some 10 }

/-- The manager state after the stop-loss close on `stopHitBarW`. -/
def stopClosedStateW : PMState :=
  { positionStatus := PositionStatus.None
    positionDirection := TradeDirection.Long
    conditionalEntryPrice := none
    completedTrades := [stopLossTradeW]
    lookbackBuffer := [stopHitBarW]
    openPosition := none }

/-- C1: the specification — and the code's own comments ("operate like any
stop loss does - on the same bar") and tests — call for an `exitRule` exit
to close on the same bar at `bar.close` with reason `exit-rule` and return
the machine to `None` so later bars are processed normally.  The code never
completes that close: `_exitPosition` reads `lookbackBuffer.data.last`,
where `data` is `CBuffer`'s plain backing `Array` with no `last` property,
so `lastBar.close` throws a TypeError on the exit-signal bar itself.  No
trade is recorded and the run aborts right there.  This theorem evaluates
`backtest` at a four-bar input whose exit rule fires on the third bar: the
whole run returns the TypeError instead of a trade list. -/
theorem backtest_aborts_after_exit_rule :
    backtest alwaysExitStrategy
        [mkBar 1 10 10 10 10, mkBar 2 10 11 9 10, mkBar 3 10 11 9 12, mkBar 4 10 11 9 10]
        noRecordOptions
      = Except.error ("TypeError: Cannot read properties of undefined (reading close)") := by
  decide

/-- C2 counterexample: the claim expects some run to survive the exit-signal
bar (same-bar close recorded, status left `Exit`, open position null) and
then fail the `Exit`-arm assertion on the following bar.  At the canonical
such input — exit rule firing on the third bar with a fourth bar still to
come — the run instead aborts on the exit-signal bar itself with the
TypeError thrown by `_exitPosition` reading `.close` of the undefined
`lookbackBuffer.data.last`: no exit-rule trade exists, the machine is never
left in the `Exit` state, and the fourth bar (where the claimed assertion
failure would occur) is never processed. -/
theorem exit_rule_typeerror_cex :
    foldBars alwaysExitStrategy noRecordOptions initialState
        [mkBar 1 10 10 10 10, mkBar 2 10 11 9 10, mkBar 3 10 11 9 12, mkBar 4 10 11 9 10]
      = Except.error ("TypeError: Cannot read properties of undefined (reading close)") := by
  decide

/-- C3 counterexample: the claim says `maxPriceRecorded` is seeded at the
entry price (10) and then tracks the running maximum of bar highs (15 here).
After entering at 10 on `mkBar 2 10 15 9 11` and processing
`mkBar 3 12 15 11 12`, the machine instead holds 12 — the running maximum of
candle-body tops (`max open close`), started from 0 — which is neither the
entry price nor the running maximum of highs. -/
theorem maxPriceRecorded_spec_cex :
    ((foldBars longOnlyStrategy noRecordOptions initialState
        [mkBar 1 10 10 10 10, mkBar 2 10 15 9 11, mkBar 3 12 15 11 12]).toOption.map
      (fun st => st.openPosition.map (fun p => (p.entryPrice, p.maxPriceRecorded)))
      = some (some ((10 : ℚ), (12 : ℚ))))
    ∧ ((12 : ℚ) ≠ 10) ∧ ((12 : ℚ) ≠ 15)
    ∧ (mkBar 2 10 15 9 11).high = 15 ∧ (mkBar 3 12 15 11 12).high = 15 := by decide

/-- C4 counterexample: the claim says a Long position closes by stop-loss
when `bar.low ≤ curStopPrice`.  With a stop at 8, the bar
`mkBar 3 10 10 7 10` has `low = 7 ≤ 8`, yet the machine does not close:
the code compares the stop against the candle-body bottom
(`min open close = 10`), so the position stays open and no trade is
emitted. -/
theorem stop_loss_intrabar_low_cex :
    ((foldBars stopOnlyStrategy noRecordOptions initialState
        [mkBar 1 10 10 10 10, mkBar 2 10 11 9 10, mkBar 3 10 10 7 10]).toOption.map
      (fun st => (st.positionStatus,
        st.openPosition.map (fun p => p.curStopPrice), st.completedTrades.length))
      = some (PositionStatus.Position, some (some (8 : ℚ)), 0))
    ∧ (mkBar 3 10 10 7 10).low ≤ (8 : ℚ) := by
  refine ⟨?_, by norm_num [mkBar]⟩
  norm_num [foldBars, addBar, stepNone, stepEnter, stepPosition, stepPositionAfterStop,
    trailingReeval, stepPositionTail, updatePosition, closePosition, finalizePosition,
    pushBuffer, lookbackOf, initialState, stopOnlyStrategy, noRecordOptions, mkBar,
    Except.toOption]

/-- C6: `backtest` constructs `new PositionManager(strategy)` without
forwarding its `options` argument, so `recordStopPrice: true` never reaches
the manager and no stop-price series is recorded: a run with a trailing-stop
strategy and `recordStopPrice := true` emits its trade with
`stopPriceSeries = undefined`. -/
theorem recordStopPrice_not_forwarded :
    (backtest trailingOnlyStrategy [mkBar 1 10 10 10 10, mkBar 2 10 11 9 10]
        { recordStopPrice := true, recordRisk := false }).toOption.map
      (fun ts => ts.map (fun t => (t.exitReason, t.stopPriceSeries)))
      = some [(("finalize"), (none : Option (List (ℕ × ℚ))))] := by decide

/-- The pushed lookback buffer has length `min (old + 1) capacity`. -/
theorem pushBuffer_length (n : ℕ) (buf : List IBar) (bar : IBar) :
    (pushBuffer n buf bar).length = min (buf.length + 1) n := by
  simp [pushBuffer]
  omega

/-- Once at least `n - 1` bars have been seen, the pushed buffer is full. -/
theorem pushBuffer_not_short (n : ℕ) (buf : List IBar) (bar : IBar)
    (h : n ≤ buf.length + 1) : ¬ (pushBuffer n buf bar).length < n := by
  rw [pushBuffer_length]
  omega

/-- C5 amended: the only completed close that happens at the price the
running metrics were computed from is the end-of-series `finalize` path —
`_updatePosition` last ran with the final bar, and `backtest` finalizes at
that same bar's close.  There the finalized profit equals the running
`profit` field for a Long position and its negation for a Short one,
because `_updatePosition` computes `profit = bar.close - entryPrice`
without a direction flip while both finalizers recompute profit
direction-aware.  Stop-loss and profit-target closes happen at a different
price before the metric update (see the counterexample), and exit-rule
closes never complete, so no equality holds for them. -/
theorem profit_roundtrip_directional (position : IPosition) (bar : IBar) (t : ℕ)
    (r : String) :
    (finalizePosition (updatePosition position bar) t bar.close r).profit
      = (match position.direction with
         | TradeDirection.Long => (updatePosition position bar).profit
         | TradeDirection.Short => -(updatePosition position bar).profit)
    ∧ (backtestFinalizePosition (updatePosition position bar) t bar.close r).profit
      = (match position.direction with
         | TradeDirection.Long => (updatePosition position bar).profit
         | TradeDirection.Short => -(updatePosition position bar).profit) := by
  cases h : position.direction <;> cases hcs : position.curStopPrice <;>
    constructor <;>
    simp [finalizePosition, backtestFinalizePosition, updatePosition, h, hcs]

/-- C10: `backtest` rejects an empty input series, and a series shorter than
the effective lookback period, before feeding any bar to the state machine;
the error is returned instead of any partial trade list. -/
theorem backtest_input_validation (strategy : IStrategy)
    (options : IBacktestOptions) (inputSeries : List IBar) :
    (inputSeries = [] →
      backtest strategy inputSeries options
        = Except.error ("Expect input data series to contain at last 1 bar."))
    ∧ (inputSeries ≠ [] → inputSeries.length < lookbackOf strategy →
      backtest strategy inputSeries options
        = Except.error ("You have less input data than your lookback period, the size of your input data should be some multiple of your lookback period.")) := by
  constructor
  · intro h
    subst h
    simp [backtest]
  · intro h1 h2
    simp [backtest, List.isEmpty_iff, h1, h2]

/-- C10 witness: the validation theorem applied to the empty series and to a
one-bar series with a lookback period of 3. -/
theorem backtest_input_validation_witness :
    (backtest longOnlyStrategy [] noRecordOptions
      = Except.error ("Expect input data series to contain at last 1 bar."))
    ∧ (backtest
        { longOnlyStrategy with lookbackPeriod := some 3 }
        [mkBar 1 10 10 10 10] noRecordOptions
      = Except.error ("You have less input data than your lookback period, the size of your input data should be some multiple of your lookback period.")) :=
  ⟨(backtest_input_validation longOnlyStrategy noRecordOptions []).1 rfl,
   (backtest_input_validation { longOnlyStrategy with lookbackPeriod := some 3 }
      noRecordOptions [mkBar 1 10 10 10 10]).2 (by decide) (by decide)⟩

/-- C9: whenever the bar-by-bar run leaves a position open, `backtest`
appends exactly one more trade, finalized at the last indicator bar's close
with reason `finalize` and the bar's time as exit time. -/
theorem backtest_finalizes_open_position (strategy : IStrategy)
    (options : IBacktestOptions) (inputSeries : List IBar) (finalState : PMState)
    (position : IPosition) (lastBar : IBar)
    (hne : inputSeries ≠ [])
    (hlb : lookbackOf strategy ≤ inputSeries.length)
    (hfold : foldBars strategy noRecordOptions initialState
        (indicatorsOf strategy inputSeries) = Except.ok finalState)
    (hopen : finalState.openPosition = some position)
    (hlast : (indicatorsOf strategy inputSeries).getLast? = some lastBar) :
    backtest strategy inputSeries options
      = Except.ok (finalState.completedTrades ++
          [backtestFinalizePosition position lastBar.time lastBar.close ("finalize")])
    ∧ (backtestFinalizePosition position lastBar.time lastBar.close
        ("finalize")).exitReason = ("finalize")
    ∧ (backtestFinalizePosition position lastBar.time lastBar.close
        ("finalize")).exitPrice = lastBar.close
    ∧ (backtestFinalizePosition position lastBar.time lastBar.close
        ("finalize")).exitTime = lastBar.time := by
  refine ⟨?_, rfl, rfl, rfl⟩
  simp [backtest, List.isEmpty_iff, hne, Nat.not_lt.mpr hlb, hfold, hopen, hlast]

/-- C9 witness: a two-bar Long run with no exit leaves `plainPositionW` open
and `backtest` appends the single `finalize` trade at the last bar's close. -/
theorem backtest_finalizes_open_position_witness :
    backtest longOnlyStrategy [mkBar 1 10 10 10 10, mkBar 2 10 10 10 10]
        noRecordOptions
      = Except.ok (openFinalStateW.completedTrades ++
          [backtestFinalizePosition plainPositionW (mkBar 2 10 10 10 10).time
            (mkBar 2 10 10 10 10).close ("finalize")]) :=
  (backtest_finalizes_open_position longOnlyStrategy noRecordOptions
      [mkBar 1 10 10 10 10, mkBar 2 10 10 10 10] openFinalStateW plainPositionW
      (mkBar 2 10 10 10 10) (by decide) (by decide) (by decide) (by decide)
      (by decide)).1

set_option maxHeartbeats 2000000 in
/-- C8: entry happens on a bar after the signal bar, at that bar's open.
On the signal bar (`None` state) the machine only records the pending entry:
no position is materialized and no trade is emitted.  On a later bar
(`Enter` state) the position is materialized at `bar.open`; if a conditional
entry price is set, the bar must first breach it intrabar (Long:
`bar.high ≥ price`, Short: `bar.low ≤ price`), and while it is unbreached
the machine stays in `Enter` with no position. -/
theorem entry_next_bar_at_open (strategy : IStrategy) (options : IBacktestOptions)
    (s : PMState) (bar : IBar) (cp : ℚ)
    (hbuf : lookbackOf strategy ≤ s.lookbackBuffer.length + 1) :
    (s.positionStatus = PositionStatus.None → s.openPosition = none →
      (addBar strategy options s bar).toOption.map
          (fun s1 => (s1.openPosition, s1.completedTrades))
        = some (none, s.completedTrades))
    ∧ (s.positionStatus = PositionStatus.Enter → s.openPosition = none →
      s.conditionalEntryPrice = none →
      (addBar strategy options s bar).toOption.map
          (fun s1 => (s1.positionStatus, s1.openPosition.map (fun p => p.entryPrice)))
        = some (PositionStatus.Position, some bar.open_))
    ∧ (s.positionStatus = PositionStatus.Enter → s.openPosition = none →
      s.conditionalEntryPrice = some cp →
      s.positionDirection = TradeDirection.Long → bar.high < cp →
      (addBar strategy options s bar).toOption.map
          (fun s1 => (s1.positionStatus, s1.openPosition.map (fun p => p.entryPrice)))
        = some (PositionStatus.Enter, none))
    ∧ (s.positionStatus = PositionStatus.Enter → s.openPosition = none →
      s.conditionalEntryPrice = some cp →
      s.positionDirection = TradeDirection.Long → cp ≤ bar.high →
      (addBar strategy options s bar).toOption.map
          (fun s1 => (s1.positionStatus, s1.openPosition.map (fun p => p.entryPrice)))
        = some (PositionStatus.Position, some bar.open_))
    ∧ (s.positionStatus = PositionStatus.Enter → s.openPosition = none →
      s.conditionalEntryPrice = some cp →
      s.positionDirection = TradeDirection.Short → cp < bar.low →
      (addBar strategy options s bar).toOption.map
          (fun s1 => (s1.positionStatus, s1.openPosition.map (fun p => p.entryPrice)))
        = some (PositionStatus.Enter, none))
    ∧ (s.positionStatus = PositionStatus.Enter → s.openPosition = none →
      s.conditionalEntryPrice = some cp →
      s.positionDirection = TradeDirection.Short → bar.low ≤ cp →
      (addBar strategy options s bar).toOption.map
          (fun s1 => (s1.positionStatus, s1.openPosition.map (fun p => p.entryPrice)))
        = some (PositionStatus.Position, some bar.open_)) := by
  have hfull := pushBuffer_not_short (lookbackOf strategy) s.lookbackBuffer bar hbuf
  refine ⟨?_, ?_, ?_, ?_, ?_, ?_⟩
  · intro hst hopen
    rcases he : strategy.entryRule bar (pushBuffer (lookbackOf strategy) s.lookbackBuffer bar)
      with _ | o <;>
      simp [addBar, hfull, hst, stepNone, he, hopen, Except.toOption]
  · intro hst hopen hcond
    rcases hd : s.positionDirection <;>
      rcases hs : strategy.stopLoss with _ | f <;>
      rcases ht : strategy.trailingStopLoss with _ | g <;>
      rcases hp : strategy.profitTarget with _ | k <;>
      cases hr1 : options.recordStopPrice <;>
      cases hr2 : options.recordRisk <;>
      simp [addBar, hfull, hst, stepEnter, hopen, hcond, hd, hs, ht, hp, hr1, hr2,
        Except.toOption]
  · intro hst hopen hcond hd hhigh
    simp [addBar, hfull, hst, stepEnter, hopen, hcond, hd, hhigh, Except.toOption]
  · intro hst hopen hcond hd hhigh
    have hnot : ¬ bar.high < cp := not_lt.mpr hhigh
    rcases hs : strategy.stopLoss with _ | f <;>
      rcases ht : strategy.trailingStopLoss with _ | g <;>
      rcases hp : strategy.profitTarget with _ | k <;>
      cases hr1 : options.recordStopPrice <;>
      cases hr2 : options.recordRisk <;>
      simp [addBar, hfull, hst, stepEnter, hopen, hcond, hd, hnot, hs, ht, hp, hr1, hr2,
        Except.toOption]
  · intro hst hopen hcond hd hlow
    simp [addBar, hfull, hst, stepEnter, hopen, hcond, hd, hlow, Except.toOption]
  · intro hst hopen hcond hd hlow
    have hnot : ¬ cp < bar.low := not_lt.mpr hlow
    rcases hs : strategy.stopLoss with _ | f <;>
      rcases ht : strategy.trailingStopLoss with _ | g <;>
      rcases hp : strategy.profitTarget with _ | k <;>
      cases hr1 : options.recordStopPrice <;>
      cases hr2 : options.recordRisk <;>
      simp [addBar, hfull, hst, stepEnter, hopen, hcond, hd, hnot, hs, ht, hp, hr1, hr2,
        Except.toOption]

/-- C8 witness: in the awaiting-entry state, the bar `mkBar 2 10 15 9 11`
materializes the position at its open. -/
theorem entry_next_bar_at_open_witness :
    (addBar longOnlyStrategy noRecordOptions enterStateW (mkBar 2 10 15 9 11)).toOption.map
        (fun s1 => (s1.positionStatus, s1.openPosition.map (fun p => p.entryPrice)))
      = some (PositionStatus.Position, some (mkBar 2 10 15 9 11).open_) :=
  (entry_next_bar_at_open longOnlyStrategy noRecordOptions enterStateW
      (mkBar 2 10 15 9 11) 0 (by decide)).2.1 rfl rfl rfl

/-- The source's candle-body top `close > open ? close : open` is
`max open close`. -/
theorem ternary_top (a b : ℚ) : (if b > a then b else a) = max a b := by
  rcases le_or_lt b a with h | h
  · rw [if_neg (not_lt.mpr h), max_eq_left h]
  · rw [if_pos h, max_eq_right h.le]

/-- The entry arm's candle-body bottom `close > open ? open : close` is
`min open close`. -/
theorem ternary_bottom_entry (a b : ℚ) : (if b > a then a else b) = min a b := by
  rcases le_or_lt b a with h | h
  · rw [if_neg (not_lt.mpr h), min_eq_right h]
  · rw [if_pos h, min_eq_left h.le]

/-- The position arm's candle-body bottom `close < open ? close : open` is
`min open close`. -/
theorem ternary_bottom (a b : ℚ) : (if b < a then b else a) = min a b := by
  rcases le_or_lt a b with h | h
  · rw [if_neg (not_lt.mpr h), min_eq_left h]
  · rw [if_pos h, min_eq_right h.le]

/-- `_updatePosition` leaves the identity and risk-limit fields unchanged. -/
theorem updatePosition_fields (position : IPosition) (bar : IBar) :
    (updatePosition position bar).maxPriceRecorded = position.maxPriceRecorded
    ∧ (updatePosition position bar).direction = position.direction
    ∧ (updatePosition position bar).curStopPrice = position.curStopPrice
    ∧ (updatePosition position bar).entryPrice = position.entryPrice := by
  rcases h : position.curStopPrice <;> simp [updatePosition, h]

/-- If the tail of the `Position` arm (metric update, risk recording, exit
rule) leaves a position open, that position has the same `maxPriceRecorded`,
`direction`, `curStopPrice` and `entryPrice` as the one it received. -/
theorem stepPositionTail_survivor (strategy : IStrategy)
    (options : IBacktestOptions) (s : PMState) (buf : List IBar) (bar : IBar)
    (pos2 : IPosition) (s1 : PMState) (p : IPosition)
    (h : stepPositionTail strategy options s buf bar pos2 = Except.ok s1)
    (hp : s1.openPosition = some p) :
    p.maxPriceRecorded = pos2.maxPriceRecorded ∧ p.direction = pos2.direction
    ∧ p.curStopPrice = pos2.curStopPrice ∧ p.entryPrice = pos2.entryPrice := by
  have hf := updatePosition_fields pos2 bar
  rcases hex : strategy.exitRule with _ | rule <;>
    rcases hb : ((updatePosition pos2 bar).curRiskPct.isSome && options.recordRisk) <;>
    simp only [stepPositionTail, hex, hb, Bool.false_eq_true, if_false, if_true] at h
  · rw [Except.ok.injEq] at h
    subst h
    simp only at hp
    rw [Option.some.injEq] at hp
    subst hp
    exact hf
  · rw [Except.ok.injEq] at h
    subst h
    simp only at hp
    rw [Option.some.injEq] at hp
    subst hp
    simpa using hf
  · split at h
    · cases h
    · rw [Except.ok.injEq] at h
      subst h
      simp only at hp
      rw [Option.some.injEq] at hp
      subst hp
      exact hf
  · split at h
    · cases h
    · rw [Except.ok.injEq] at h
      subst h
      simp only at hp
      rw [Option.some.injEq] at hp
      subst hp
      simpa using hf

/-- The trailing re-evaluation only ever touches `curStopPrice` and
`stopPriceSeries`. -/
theorem trailingReeval_fields (strategy : IStrategy) (options : IBacktestOptions)
    (buf : List IBar) (bar : IBar) (pos1 : IPosition) :
    (trailingReeval strategy options buf bar pos1).maxPriceRecorded
        = pos1.maxPriceRecorded
    ∧ (trailingReeval strategy options buf bar pos1).direction = pos1.direction
    ∧ (trailingReeval strategy options buf bar pos1).entryPrice = pos1.entryPrice
    ∧ (trailingReeval strategy options buf bar pos1).profitTarget
        = pos1.profitTarget := by
  rcases ht : strategy.trailingStopLoss with _ | f <;>
    rcases hd : pos1.direction <;>
    rcases hcs : pos1.curStopPrice with _ | cs <;>
    cases hrc : options.recordStopPrice <;>
    simp only [trailingReeval, ht, hd, hcs, hrc, Bool.false_eq_true, if_false,
      if_true] <;>
    first
    | (split_ifs with hnts <;> simp [hd, hcs])
    | simp [hd, hcs]

/-- The trailing re-evaluation never loosens the stop: when a stop exists it
stays, and it only moves up for a Long position / down for a Short one. -/
theorem trailingReeval_stop (strategy : IStrategy) (options : IBacktestOptions)
    (buf : List IBar) (bar : IBar) (pos1 : IPosition) :
    ((pos1.curStopPrice = none →
      (trailingReeval strategy options buf bar pos1).curStopPrice = none))
    ∧ (∀ cs, pos1.curStopPrice = some cs →
      ∃ cs1, (trailingReeval strategy options buf bar pos1).curStopPrice = some cs1
        ∧ (pos1.direction = TradeDirection.Long → cs ≤ cs1)
        ∧ (pos1.direction = TradeDirection.Short → cs1 ≤ cs)) := by
  constructor
  · intro hnone
    rcases ht : strategy.trailingStopLoss with _ | f <;>
      rcases hd : pos1.direction <;>
      cases hrc : options.recordStopPrice <;>
      simp [trailingReeval, ht, hd, hnone, hrc]
  · intro cs hcs
    rcases ht : strategy.trailingStopLoss with _ | f
    · exact ⟨cs, by simp [trailingReeval, ht, hcs], fun _ => le_refl cs,
        fun _ => le_refl cs⟩
    · rcases hd : pos1.direction <;> cases hrc : options.recordStopPrice <;>
        simp only [trailingReeval, ht, hd, hcs, hrc, Bool.false_eq_true, if_false,
          if_true] <;>
        split_ifs with hnts
      · exact ⟨pos1.maxPriceRecorded - f pos1.entryPrice pos1 bar buf,
          by simp [hcs], by simp [hd, le_of_lt hnts]⟩
      · exact ⟨cs, by simp [hcs], by simp [hd]⟩
      · exact ⟨pos1.maxPriceRecorded - f pos1.entryPrice pos1 bar buf,
          by simp [hcs], by simp [hd, le_of_lt hnts]⟩
      · exact ⟨cs, by simp [hcs], by simp [hd]⟩
      · exact ⟨pos1.maxPriceRecorded + f pos1.entryPrice pos1 bar buf,
          by simp [hcs], by simp [hd, le_of_lt hnts]⟩
      · exact ⟨cs, by simp [hcs], by simp [hd]⟩
      · exact ⟨pos1.maxPriceRecorded + f pos1.entryPrice pos1 bar buf,
          by simp [hcs], by simp [hd, le_of_lt hnts]⟩
      · exact ⟨cs, by simp [hcs], by simp [hd]⟩

/-- If the post-stop-check stages of the `Position` arm leave a position
open, its `maxPriceRecorded`, `direction` and `entryPrice` are those of the
position handed in, and its stop can only have tightened. -/
theorem stepPositionAfterStop_survivor (strategy : IStrategy)
    (options : IBacktestOptions) (s : PMState) (buf : List IBar) (bar : IBar)
    (pos1 : IPosition) (s1 : PMState) (p : IPosition)
    (h : stepPositionAfterStop strategy options s buf bar pos1 = Except.ok s1)
    (hp : s1.openPosition = some p) :
    p.maxPriceRecorded = pos1.maxPriceRecorded
    ∧ p.direction = pos1.direction
    ∧ p.entryPrice = pos1.entryPrice
    ∧ (pos1.curStopPrice = none → p.curStopPrice = none)
    ∧ (∀ cs, pos1.curStopPrice = some cs →
        ∃ cs1, p.curStopPrice = some cs1
          ∧ (pos1.direction = TradeDirection.Long → cs ≤ cs1)
          ∧ (pos1.direction = TradeDirection.Short → cs1 ≤ cs)) := by
  obtain ⟨hm, hdir, hentry, hpt⟩ := trailingReeval_fields strategy options buf bar pos1
  obtain ⟨hsn, hss⟩ := trailingReeval_stop strategy options buf bar pos1
  simp only [stepPositionAfterStop] at h
  rcases htgt : (trailingReeval strategy options buf bar pos1).profitTarget
    with _ | tgt <;> rw [htgt] at h
  · obtain ⟨m2, d2, s2, e2⟩ :=
      stepPositionTail_survivor strategy options s buf bar _ s1 p h hp
    refine ⟨m2.trans hm, d2.trans hdir, e2.trans hentry, ?_, ?_⟩
    · intro hnone
      rw [s2]
      exact hsn hnone
    · intro cs hcs
      obtain ⟨cs1, hcs1, hL, hS⟩ := hss cs hcs
      exact ⟨cs1, by rw [s2]; exact hcs1, hL, hS⟩
  · rcases hd2 : (trailingReeval strategy options buf bar pos1).direction <;>
      simp only [hd2] at h <;> split at h
    · rw [Except.ok.injEq] at h
      subst h
      simp [closePosition] at hp
    · obtain ⟨m2, d2, s2, e2⟩ :=
        stepPositionTail_survivor strategy options s buf bar _ s1 p h hp
      refine ⟨m2.trans hm, d2.trans hdir, e2.trans hentry, ?_, ?_⟩
      · intro hnone
        rw [s2]
        exact hsn hnone
      · intro cs hcs
        obtain ⟨cs1, hcs1, hL, hS⟩ := hss cs hcs
        exact ⟨cs1, by rw [s2]; exact hcs1, hL, hS⟩
    · rw [Except.ok.injEq] at h
      subst h
      simp [closePosition] at hp
    · obtain ⟨m2, d2, s2, e2⟩ :=
        stepPositionTail_survivor strategy options s buf bar _ s1 p h hp
      refine ⟨m2.trans hm, d2.trans hdir, e2.trans hentry, ?_, ?_⟩
      · intro hnone
        rw [s2]
        exact hsn hnone
      · intro cs hcs
        obtain ⟨cs1, hcs1, hL, hS⟩ := hss cs hcs
        exact ⟨cs1, by rw [s2]; exact hcs1, hL, hS⟩

/-- C7: across any processed bar that leaves the position open, the stop
price survives and is monotone in the position's favor: it never decreases
for a Long position and never increases for a Short one (the trailing
re-evaluation replaces it only under a strict improvement). -/
theorem curStopPrice_monotone (strategy : IStrategy) (options : IBacktestOptions)
    (s : PMState) (bar : IBar) (s1 : PMState) (p0 p1 : IPosition) (cs : ℚ)
    (hrun : addBar strategy options s bar = Except.ok s1)
    (h0 : s.openPosition = some p0)
    (h1 : s1.openPosition = some p1)
    (hcs : p0.curStopPrice = some cs) :
    ∃ cs1, p1.curStopPrice = some cs1
      ∧ (p0.direction = TradeDirection.Long → cs ≤ cs1)
      ∧ (p0.direction = TradeDirection.Short → cs1 ≤ cs) := by
  by_cases hfull : (pushBuffer (lookbackOf strategy) s.lookbackBuffer bar).length
      < lookbackOf strategy
  · simp only [addBar, if_pos hfull] at hrun
    rw [Except.ok.injEq] at hrun
    subst hrun
    simp only [h0, Option.some.injEq] at h1
    subst h1
    exact ⟨cs, hcs, fun _ => le_refl cs, fun _ => le_refl cs⟩
  · simp only [addBar, if_neg hfull] at hrun
    rcases hst : s.positionStatus <;> rw [hst] at hrun
    · rcases he : strategy.entryRule bar
          (pushBuffer (lookbackOf strategy) s.lookbackBuffer bar) with _ | o <;>
        simp only [stepNone, he, Except.ok.injEq] at hrun <;>
        subst hrun <;>
        simp only [h0, Option.some.injEq] at h1 <;>
        subst h1 <;>
        exact ⟨cs, hcs, fun _ => le_refl cs, fun _ => le_refl cs⟩
    · rw [stepEnter, h0] at hrun
      cases hrun
    · rw [stepPosition, h0] at hrun
      rcases hd : p0.direction <;>
        simp only [hd, hcs, ternary_top, ternary_bottom] at hrun
      · split at hrun
        · rw [Except.ok.injEq] at hrun
          subst hrun
          simp [closePosition] at h1
        · obtain ⟨_, _, _, _, hstop⟩ :=
            stepPositionAfterStop_survivor strategy options s _ bar _ s1 p1 hrun h1
          obtain ⟨cs1, hcs1, hL, hS⟩ := hstop cs (by simpa using hcs)
          exact ⟨cs1, hcs1, fun _ => hL (by simp [hd]),
            fun hds => by simp [hd] at hds⟩
      · split at hrun
        · rw [Except.ok.injEq] at hrun
          subst hrun
          simp [closePosition] at h1
        · obtain ⟨_, _, _, _, hstop⟩ :=
            stepPositionAfterStop_survivor strategy options s _ bar _ s1 p1 hrun h1
          obtain ⟨cs1, hcs1, hL, hS⟩ := hstop cs (by simpa using hcs)
          exact ⟨cs1, hcs1, fun hdl => by simp [hd] at hdl,
            fun _ => hS (by simp [hd])⟩
    · rw [stepExit, h0] at hrun
      rw [Except.ok.injEq] at hrun
      subst hrun
      simp only [h0, Option.some.injEq] at h1
      subst h1
      exact ⟨cs, hcs, fun _ => le_refl cs, fun _ => le_refl cs⟩

/-- Step lemma for the monotonicity witness run: `stopPositionW` survives
`monotoneBarW` with its stop intact. -/
theorem monotoneRunW :
    addBar stopOnlyStrategy noRecordOptions positionStateW monotoneBarW
      = Except.ok updatedPositionStateW := by
  norm_num [addBar, stepPosition, stepPositionAfterStop, trailingReeval,
    stepPositionTail, updatePosition, closePosition, finalizePosition, pushBuffer,
    lookbackOf, stopOnlyStrategy, noRecordOptions, mkBar, monotoneBarW,
    positionStateW, stopPositionW, updatedPositionStateW, updatedStopPositionW]

/-- C7 witness: the monotonicity theorem applied to the concrete run of
`stopPositionW` (Long, stop 8) through `monotoneBarW`. -/
theorem curStopPrice_monotone_witness :
    ∃ cs1, updatedStopPositionW.curStopPrice = some cs1
      ∧ (stopPositionW.direction = TradeDirection.Long → (8 : ℚ) ≤ cs1)
      ∧ (stopPositionW.direction = TradeDirection.Short → cs1 ≤ (8 : ℚ)) :=
  curStopPrice_monotone stopOnlyStrategy noRecordOptions positionStateW monotoneBarW
    updatedPositionStateW stopPositionW updatedStopPositionW 8 monotoneRunW rfl rfl rfl

set_option maxHeartbeats 2000000 in
/-- C3 amended: `maxPriceRecorded` is seeded from 0 at materialization —
`max (max open close) 0` for a Long entry bar, `min (min open close) 0` for
a Short one — and on every later bar that leaves the position open it is
the running maximum of candle-body tops `max open close` (Long), or the
running minimum of candle-body bottoms `min open close` (Short).  It is not
seeded at the entry price and does not track the bars' highs / lows. -/
theorem maxPriceRecorded_body_extreme_update (strategy : IStrategy)
    (options : IBacktestOptions) (s : PMState) (bar : IBar) (s1 : PMState)
    (hbuf : lookbackOf strategy ≤ s.lookbackBuffer.length + 1)
    (hrun : addBar strategy options s bar = Except.ok s1) :
    (s.positionStatus = PositionStatus.Enter → s.openPosition = none →
      s.conditionalEntryPrice = none →
      s1.openPosition.map (fun p => p.maxPriceRecorded)
        = some (match s.positionDirection with
                | TradeDirection.Long => max (max bar.open_ bar.close) 0
                | TradeDirection.Short => min (min bar.open_ bar.close) 0))
    ∧ (∀ p0 p1, s.positionStatus = PositionStatus.Position →
        s.openPosition = some p0 → s1.openPosition = some p1 →
        p1.maxPriceRecorded
          = (match p0.direction with
             | TradeDirection.Long => max (max bar.open_ bar.close) p0.maxPriceRecorded
             | TradeDirection.Short =>
                min (min bar.open_ bar.close) p0.maxPriceRecorded)) := by
  have hfull := pushBuffer_not_short (lookbackOf strategy) s.lookbackBuffer bar hbuf
  constructor
  · intro hst hopen hcond
    rw [addBar, if_neg hfull, hst, stepEnter, hopen] at hrun
    rcases hd : s.positionDirection <;>
      rcases hs : strategy.stopLoss with _ | f <;>
      rcases ht : strategy.trailingStopLoss with _ | g <;>
      rcases hp : strategy.profitTarget with _ | k <;>
      cases hr1 : options.recordStopPrice <;>
      cases hr2 : options.recordRisk <;>
      simp only [hcond, hd, hs, ht, hp, hr1, hr2, Bool.false_eq_true, if_false,
        if_true, Except.ok.injEq] at hrun <;>
      subst hrun <;>
      simp [ternary_top, ternary_bottom_entry, hd]
  · intro p0 p1 hst hopen h1
    rw [addBar, if_neg hfull, hst, stepPosition, hopen] at hrun
    rcases hd : p0.direction <;>
      simp only [hd, ternary_top, ternary_bottom] at hrun
    · rcases hcs : p0.curStopPrice with _ | cs <;> simp only [hcs] at hrun
      · obtain ⟨hm, _, _, _, _⟩ :=
          stepPositionAfterStop_survivor strategy options s _ bar _ s1 p1 hrun h1
        simpa [hd] using hm
      · split at hrun
        · rw [Except.ok.injEq] at hrun
          subst hrun
          simp [closePosition] at h1
        · obtain ⟨hm, _, _, _, _⟩ :=
            stepPositionAfterStop_survivor strategy options s _ bar _ s1 p1 hrun h1
          simpa [hd] using hm
    · rcases hcs : p0.curStopPrice with _ | cs <;> simp only [hcs] at hrun
      · obtain ⟨hm, _, _, _, _⟩ :=
          stepPositionAfterStop_survivor strategy options s _ bar _ s1 p1 hrun h1
        simpa [hd] using hm
      · split at hrun
        · rw [Except.ok.injEq] at hrun
          subst hrun
          simp [closePosition] at h1
        · obtain ⟨hm, _, _, _, _⟩ :=
            stepPositionAfterStop_survivor strategy options s _ bar _ s1 p1 hrun h1
          simpa [hd] using hm

/-- C3 witness: the amended update rule applied to the concrete run of
`stopPositionW` (Long, `maxPriceRecorded = 10`) through `monotoneBarW`
(open 10, close 11): the new value is `max (max 10 11) 10 = 11`. -/
theorem maxPriceRecorded_body_extreme_update_witness :
    updatedStopPositionW.maxPriceRecorded
      = (match stopPositionW.direction with
         | TradeDirection.Long =>
            max (max monotoneBarW.open_ monotoneBarW.close)
              stopPositionW.maxPriceRecorded
         | TradeDirection.Short =>
            min (min monotoneBarW.open_ monotoneBarW.close)
              stopPositionW.maxPriceRecorded) :=
  (maxPriceRecorded_body_extreme_update stopOnlyStrategy noRecordOptions
      positionStateW monotoneBarW updatedPositionStateW (by decide) monotoneRunW).2
    stopPositionW updatedStopPositionW rfl rfl rfl

/-- When the profit target is breached intrabar, the post-stop-check stages
close at the target with reason `profit-target`. -/
theorem stepPositionAfterStop_closes_at_target (strategy : IStrategy)
    (options : IBacktestOptions) (s : PMState) (buf : List IBar) (bar : IBar)
    (pos1 : IPosition) (tgt : ℚ)
    (hptgt : pos1.profitTarget = some tgt)
    (hhit : (match pos1.direction with
             | TradeDirection.Long => decide (bar.high ≥ tgt)
             | TradeDirection.Short => decide (bar.low ≤ tgt)) = true) :
    stepPositionAfterStop strategy options s buf bar pos1
      = Except.ok (closePosition s buf (trailingReeval strategy options buf bar pos1)
          bar tgt ("profit-target")) := by
  obtain ⟨hm, hdir, hentry, hpt⟩ := trailingReeval_fields strategy options buf bar pos1
  simp only [stepPositionAfterStop, hpt.trans hptgt, hdir]
  rw [if_pos hhit]

set_option maxHeartbeats 2000000 in
/-- C4 amended: the stop-loss trigger compares the stop against the candle
body, not the intrabar extremes — a Long position closes when
`min open close ≤ curStopPrice`, a Short one when `max open close ≥
curStopPrice`, at `curStopPrice` with reason `stop-loss`.  The profit-target
trigger does use `bar.high` (Long) / `bar.low` (Short), closing at the
target with reason `profit-target`. -/
theorem stop_and_target_triggers (strategy : IStrategy)
    (options : IBacktestOptions) (s : PMState) (bar : IBar) (s1 : PMState)
    (p0 : IPosition) (cs tgt : ℚ)
    (hbuf : lookbackOf strategy ≤ s.lookbackBuffer.length + 1)
    (hst : s.positionStatus = PositionStatus.Position)
    (hopen : s.openPosition = some p0)
    (hrun : addBar strategy options s bar = Except.ok s1) :
    (p0.direction = TradeDirection.Long → p0.curStopPrice = some cs →
      min bar.open_ bar.close ≤ cs →
      s1.positionStatus = PositionStatus.None ∧ s1.openPosition = none
      ∧ s1.completedTrades.map (fun t => (t.exitReason, t.exitPrice, t.exitTime))
        = s.completedTrades.map (fun t => (t.exitReason, t.exitPrice, t.exitTime))
          ++ [(("stop-loss"), cs, bar.time)])
    ∧ (p0.direction = TradeDirection.Short → p0.curStopPrice = some cs →
      cs ≤ max bar.open_ bar.close →
      s1.positionStatus = PositionStatus.None ∧ s1.openPosition = none
      ∧ s1.completedTrades.map (fun t => (t.exitReason, t.exitPrice, t.exitTime))
        = s.completedTrades.map (fun t => (t.exitReason, t.exitPrice, t.exitTime))
          ++ [(("stop-loss"), cs, bar.time)])
    ∧ (p0.direction = TradeDirection.Long →
      (∀ c, p0.curStopPrice = some c → c < min bar.open_ bar.close) →
      p0.profitTarget = some tgt → tgt ≤ bar.high →
      s1.positionStatus = PositionStatus.None ∧ s1.openPosition = none
      ∧ s1.completedTrades.map (fun t => (t.exitReason, t.exitPrice, t.exitTime))
        = s.completedTrades.map (fun t => (t.exitReason, t.exitPrice, t.exitTime))
          ++ [(("profit-target"), tgt, bar.time)])
    ∧ (p0.direction = TradeDirection.Short →
      (∀ c, p0.curStopPrice = some c → max bar.open_ bar.close < c) →
      p0.profitTarget = some tgt → bar.low ≤ tgt →
      s1.positionStatus = PositionStatus.None ∧ s1.openPosition = none
      ∧ s1.completedTrades.map (fun t => (t.exitReason, t.exitPrice, t.exitTime))
        = s.completedTrades.map (fun t => (t.exitReason, t.exitPrice, t.exitTime))
          ++ [(("profit-target"), tgt, bar.time)]) := by
  have hfull := pushBuffer_not_short (lookbackOf strategy) s.lookbackBuffer bar hbuf
  rw [addBar, if_neg hfull, hst, stepPosition, hopen] at hrun
  refine ⟨?_, ?_, ?_, ?_⟩
  · intro hd hcs hhit
    simp only [hd, hcs, ternary_top, ternary_bottom, decide_eq_true_eq] at hrun
    rw [if_pos hhit, Except.ok.injEq] at hrun
    subst hrun
    simp [closePosition, finalizePosition]
  · intro hd hcs hhit
    simp only [hd, hcs, ternary_top, ternary_bottom, decide_eq_true_eq, ge_iff_le]
      at hrun
    rw [if_pos hhit, Except.ok.injEq] at hrun
    subst hrun
    simp [closePosition, finalizePosition]
  · intro hd hmiss hptgt hhit
    simp only [hd, ternary_top, ternary_bottom, decide_eq_true_eq] at hrun
    rcases hcs0 : p0.curStopPrice with _ | c <;> simp only [hcs0] at hrun
    · rw [stepPositionAfterStop_closes_at_target strategy options s _ bar _ tgt
          (by simpa using hptgt) (by simp [hd, ge_iff_le, hhit]),
        Except.ok.injEq] at hrun
      subst hrun
      simp [closePosition, finalizePosition]
    · rw [if_neg (not_le.mpr (hmiss c hcs0))] at hrun
      rw [stepPositionAfterStop_closes_at_target strategy options s _ bar _ tgt
          (by simpa using hptgt) (by simp [hd, ge_iff_le, hhit]),
        Except.ok.injEq] at hrun
      subst hrun
      simp [closePosition, finalizePosition]
  · intro hd hmiss hptgt hhit
    simp only [hd, ternary_top, ternary_bottom, decide_eq_true_eq, ge_iff_le] at hrun
    rcases hcs0 : p0.curStopPrice with _ | c <;> simp only [hcs0] at hrun
    · rw [stepPositionAfterStop_closes_at_target strategy options s _ bar _ tgt
          (by simpa using hptgt) (by simp [hd, hhit]),
        Except.ok.injEq] at hrun
      subst hrun
      simp [closePosition, finalizePosition]
    · rw [if_neg (not_le.mpr (hmiss c hcs0))] at hrun
      rw [stepPositionAfterStop_closes_at_target strategy options s _ bar _ tgt
          (by simpa using hptgt) (by simp [hd, hhit]),
        Except.ok.injEq] at hrun
      subst hrun
      simp [closePosition, finalizePosition]

/-- Step lemma for the C4 witness: `stopPositionW` is stopped out on
`stopHitBarW` at 8. -/
theorem stopHitRunW :
    addBar stopOnlyStrategy noRecordOptions positionStateW stopHitBarW
      = Except.ok stopClosedStateW := by
  norm_num [addBar, stepPosition, stepPositionAfterStop, trailingReeval,
    stepPositionTail, updatePosition, closePosition, finalizePosition, pushBuffer,
    lookbackOf, stopOnlyStrategy, noRecordOptions, mkBar, stopHitBarW,
    positionStateW, stopPositionW, stopClosedStateW, stopLossTradeW]

/-- C4 witness: the stop-loss conjunct applied to the concrete stop-out of
`stopPositionW` (Long, stop 8) on `stopHitBarW` (body bottom 8). -/
theorem stop_and_target_triggers_witness :
    stopClosedStateW.positionStatus = PositionStatus.None
    ∧ stopClosedStateW.openPosition = none
    ∧ stopClosedStateW.completedTrades.map
        (fun t => (t.exitReason, t.exitPrice, t.exitTime))
      = positionStateW.completedTrades.map
          (fun t => (t.exitReason, t.exitPrice, t.exitTime))
        ++ [(("stop-loss"), (8 : ℚ), stopHitBarW.time)] :=
  (stop_and_target_triggers stopOnlyStrategy noRecordOptions positionStateW
      stopHitBarW stopClosedStateW stopPositionW 8 0 (by decide) rfl rfl
      stopHitRunW).1 rfl rfl (by norm_num [stopHitBarW, mkBar])

/-- C2 amended: whenever the machine is in a position and the exit rule
signals exit on a processed bar (here: no stop, target or trailing stop
configured to preempt it, and a rule that always fires), `addBar` aborts on
that same bar with the TypeError thrown inside `_exitPosition` — reading
`.close` of the undefined `lookbackBuffer.data.last` — before
`_closePosition` or the `Exit` status assignment can run.  No trade is
recorded and the `Exit` arm of `addBar` is never reached. -/
theorem exit_rule_aborts_same_bar (strategy : IStrategy)
    (options : IBacktestOptions) (s : PMState) (bar : IBar) (p0 : IPosition)
    (rule : ℚ → IPosition → IBar → List IBar → Bool)
    (hbuf : lookbackOf strategy ≤ s.lookbackBuffer.length + 1)
    (hst : s.positionStatus = PositionStatus.Position)
    (hopen : s.openPosition = some p0)
    (hcs : p0.curStopPrice = none)
    (hpt : p0.profitTarget = none)
    (ht : strategy.trailingStopLoss = none)
    (hex : strategy.exitRule = some rule)
    (hrule : ∀ e p b l, rule e p b l = true) :
    addBar strategy options s bar
      = Except.error ("TypeError: Cannot read properties of undefined (reading close)") := by
  have hfull := pushBuffer_not_short (lookbackOf strategy) s.lookbackBuffer bar hbuf
  rw [addBar, if_neg hfull, hst, stepPosition, hopen]
  rcases hd : p0.direction <;>
    simp [hd, hcs, hpt, ht, hex, hrule, stepPositionAfterStop, trailingReeval,
      stepPositionTail, updatePosition]

/-- C2 witness: the amended abort theorem applied to `alwaysExitStrategy`
and the reachable open-position state `openFinalStateW`. -/
theorem exit_rule_aborts_same_bar_witness :
    addBar alwaysExitStrategy noRecordOptions openFinalStateW (mkBar 3 10 11 9 12)
      = Except.error ("TypeError: Cannot read properties of undefined (reading close)") :=
  exit_rule_aborts_same_bar alwaysExitStrategy noRecordOptions openFinalStateW
    (mkBar 3 10 11 9 12) plainPositionW (fun _ _ _ _ => true) (by decide) rfl rfl rfl
    rfl rfl rfl (fun _ _ _ _ => rfl)

/-- C5 counterexample: a run through `stopOnlyStrategy` reaches
`positionStateW` (the Long position `stopPositionW`, entered at 10 with
stop 8, whose running `profit` field is `0` — `_updatePosition` never ran
for it).  On `stopHitBarW` the stop-loss check fires before the metric
update, so the machine hands exactly `stopPositionW` (its `maxPriceRecorded`
recalculation `max (max 8 8) 10` leaves it unchanged) to
`finalizePosition`, whose recomputed profit is `8 - 10 = -2`.  The emitted
trade records profit `-2` while the position's own running profit at the
moment of closure was `0`. -/
theorem profit_roundtrip_cex :
    (foldBars stopOnlyStrategy noRecordOptions initialState
        [mkBar 1 10 10 10 10, mkBar 2 10 11 9 10] = Except.ok positionStateW)
    ∧ stopPositionW.profit = 0
    ∧ addBar stopOnlyStrategy noRecordOptions positionStateW stopHitBarW
        = Except.ok stopClosedStateW
    ∧ stopClosedStateW.completedTrades
        = [finalizePosition stopPositionW stopHitBarW.time 8 ("stop-loss")]
    ∧ (finalizePosition stopPositionW stopHitBarW.time 8 ("stop-loss")).profit = -2
    ∧ ((-2 : ℚ) ≠ 0) := by
  refine ⟨?_, rfl, stopHitRunW, ?_, ?_, by norm_num⟩
  · norm_num [foldBars, addBar, stepNone, stepEnter, pushBuffer, lookbackOf,
      initialState, stopOnlyStrategy, noRecordOptions, mkBar, positionStateW,
      stopPositionW]
  · norm_num [finalizePosition, stopPositionW, stopLossTradeW, stopClosedStateW,
      stopHitBarW, mkBar]
  · norm_num [finalizePosition, stopPositionW, stopHitBarW, mkBar]
